import Mathlib

set_option maxRecDepth 40000

/-!
Verification of the Fair Value Gap (FVG) detection and composite confluence
scoring engine of the MarketFlow repository (`src/lib/ict.ts`).

Shallow embedding conventions:
* Prices and times are exact rationals (`ℚ`).  The TypeScript code stores
  `time` as `string | number`; all properties verified here are restricted to
  inputs whose times are numerically coercible, so time is modelled directly
  as a rational number.
* JavaScript `NaN` results (an SMA during warm-up, the equilibrium of an
  empty window) are modelled with `Option`: `none` plays the role of `NaN`
  (respectively `Infinity` / `-Infinity` for the window folds), and every
  comparison against such a value is translated with the IEEE outcome the
  source relies on (`x > NaN` is false, `x ≤ Infinity` is true).
* Machine floating point is replaced by exact rational arithmetic; the
  verified properties are control-flow and window-selection facts that do not
  depend on rounding.
* The mutable `openZones` array with its in-place `zone.mitigated = true`
  writes becomes explicit state passing (`ScanState`); the `for` loop over
  candle indices becomes a fold over the index list `[2, …, n-1]`.
-/

namespace MarketFlow

/-- Candle input record (`CandleInput` in the source).  The `open` field is
renamed `open_` because `open` is a Lean keyword. -/
structure Candle where
  time : ℚ
  open_ : ℚ
  high : ℚ
  low : ℚ
  close : ℚ
deriving DecidableEq, Repr

/-- Direction of an FVG zone. -/
inductive ZoneType where
  | bullish
  | bearish
deriving DecidableEq, Repr

/-- Direction of an emitted entry signal. -/
inductive SigType where
  | LONG
  | SHORT
deriving DecidableEq, Repr

/-- Marker anchoring position on the rendered chart. -/
inductive MarkerPosition where
  | belowBar
  | aboveBar
  | inBar
deriving DecidableEq, Repr

/-- Marker shape on the rendered chart. -/
inductive MarkerShape where
  | arrowUp
  | arrowDown
  | circle
  | square
deriving DecidableEq, Repr

/-- One entry of the score breakdown: awarded points, declared maximum and
the boolean outcome of the criterion. -/
structure CriterionScore where
  score : ℕ
  max : ℕ
  passed : Bool
deriving DecidableEq, Repr

/-- Individual breakdown of each scoring factor (`ScoreBreakdown`). -/
structure ScoreBreakdown where
  marketStructure : CriterionScore
  sessionOverlap : CriterionScore
  orderBlock : CriterionScore
  fvgPresence : CriterionScore
  liquiditySwept : CriterionScore
  discountPremium : CriterionScore
  candlestick : CriterionScore
deriving DecidableEq, Repr

/-- A fully-qualified entry signal emitted by `findFVGs` (`ICTSignal`). -/
structure ICTSignal where
  time : ℚ
  type : SigType
  totalScore : ℕ
  breakdown : ScoreBreakdown
deriving DecidableEq, Repr

/-- A marker to render on the candlestick chart (`ChartMarker`). -/
structure ChartMarker where
  time : ℚ
  position : MarkerPosition
  color : String
  shape : MarkerShape
  text : String
  size : Option ℕ
deriving DecidableEq, Repr

/-- Combined return value from `findFVGs` (`FVGResult`). -/
structure FVGResult where
  markers : List ChartMarker
  signals : List ICTSignal
deriving DecidableEq, Repr

/-- Internal FVG zone, tracking mitigation state (`FvgZone`). -/
structure FvgZone where
  type : ZoneType
  top : ℚ
  bottom : ℚ
  mitigated : Bool
  time : ℚ
  formedAt : ℕ
deriving DecidableEq, Repr

/-- The seven confluence weights (`CONFLUENCE_WEIGHTS` record shape). -/
structure ConfluenceWeights where
  marketStructure : ℕ
  sessionOverlap : ℕ
  orderBlock : ℕ
  fvgPresence : ℕ
  liquiditySwept : ℕ
  discountPremium : ℕ
  candlestick : ℕ
deriving DecidableEq, Repr

/-- `CONFLUENCE_WEIGHTS` constant from the source. -/
def CONFLUENCE_WEIGHTS : ConfluenceWeights :=
  { marketStructure := 20
    sessionOverlap := 15
    orderBlock := 20
    fvgPresence := 15
    liquiditySwept := 15
    discountPremium := 10
    candlestick := 5 }

/-- `SMA_PERIOD` constant. -/
def SMA_PERIOD : ℕ := 50

/-- `ATR_PERIOD` constant. -/
def ATR_PERIOD : ℕ := 14

/-- `DISPLACEMENT_MULT` constant. -/
def DISPLACEMENT_MULT : ℚ := 1.5

/-- `MIN_SCORE` constant. -/
def MIN_SCORE : ℕ := 60

/-- Color of bullish-FVG formation markers. -/
def COLOR_BULLISH_FVG : String := "#22c55e55"

/-- Color of bearish-FVG formation markers. -/
def COLOR_BEARISH_FVG : String := "#ef444455"

/-- Color of LONG entry markers. -/
def COLOR_LONG_ENTRY : String := "#10b981"

/-- Color of SHORT entry markers. -/
def COLOR_SHORT_ENTRY : String := "#e11d48"

/-- Out-of-range array accesses never happen on the paths the source
executes; `List.getD` with this default keeps the embedding total. -/
def defaultCandle : Candle := ⟨0, 0, 0, 0, 0⟩

/-- Simple moving average of closes over `[endIdx - period + 1, endIdx]`
(`sma` in the source); `none` models the `NaN` returned during warm-up. -/
def sma (data : List Candle) (endIdx period : ℕ) : Option ℚ :=
  if endIdx < period - 1 then none
  else
    some ((((List.range' (endIdx + 1 - period) period).map
      (fun j => (data.getD j defaultCandle).close)).sum) / (period : ℚ))

/-- Average absolute candle body over `[max 0 (endIdx - period + 1), endIdx]`
(`avgBody` in the source). -/
def avgBody (data : List Candle) (endIdx period : ℕ) : ℚ :=
  let start := endIdx + 1 - period
  let count := endIdx + 1 - start
  if 0 < count then
    (((List.range' start count).map
      (fun j => |(data.getD j defaultCandle).close - (data.getD j defaultCandle).open_|)).sum)
      / (count : ℚ)
  else 0

/-- Fold of `Math.min` starting from `Infinity` over a list; `none` is the
empty-window `Infinity`. -/
def foldMinQ (l : List ℚ) : Option ℚ :=
  l.foldl (fun acc x => some (acc.elim x (fun a => min a x))) none

/-- Fold of `Math.max` starting from `-Infinity` over a list; `none` is the
empty-window `-Infinity`. -/
def foldMaxQ (l : List ℚ) : Option ℚ :=
  l.foldl (fun acc x => some (acc.elim x (fun a => max a x))) none

/-- The boolean `!isNaN(sma50) && sma50 < c` used by the trend checks. -/
def trendAbove (sma50 : Option ℚ) (c : ℚ) : Bool :=
  match sma50 with
  | none => false
  | some s => decide (s < c)

/-- The boolean `!isNaN(sma50) && c < sma50` used by the trend checks. -/
def trendBelow (sma50 : Option ℚ) (c : ℚ) : Bool :=
  match sma50 with
  | none => false
  | some s => decide (c < s)

/-- New-York-session window test (`isNYSession`).  `time` is Unix seconds;
sub-`1e9`-second (i.e. `ts < 1e12` milliseconds) timestamps are treated as
non-intraday and fail.  `getUTCHours/getUTCMinutes` of a millisecond
timestamp combine into the minute-of-day `⌊ts / 60000⌋ % 1440`. -/
def isNYSession (time : ℚ) : Bool :=
  let ts := time * 1000
  if ts < 1000000000000 then false
  else
    let totalMinutes : ℤ := (⌊ts / 60000⌋) % 1440
    decide ((14 * 60 + 30 ≤ totalMinutes ∧ totalMinutes ≤ 16 * 60 + 30) ∨
      (18 * 60 + 30 ≤ totalMinutes ∧ totalMinutes ≤ 20 * 60 + 30))

/-- Result record of `calculateCompositeScore`. -/
structure ScoreResult where
  totalScore : ℕ
  breakdown : ScoreBreakdown
deriving DecidableEq, Repr

/-- The conditional expression `pass ? weight : 0` used by every criterion. -/
def gate (pass : Bool) (weight : ℕ) : ℕ := if pass then weight else 0

/-- Criterion 1 (market structure): SMA50 trend alignment at the mitigation
candle, the `msPass` boolean of `calculateCompositeScore`. -/
def msPass (ty : SigType) (sma50 : Option ℚ) (curr : Candle) : Bool :=
  match ty with
  | SigType.LONG => trendAbove sma50 curr.close
  | SigType.SHORT => trendBelow sma50 curr.close

/-- Criterion 3 (order block proxy): some candle among the 20 preceding the
mitigation index has its low (LONG) or high (SHORT) inside a narrow band
around the zone edge; the `obPass` loop of `calculateCompositeScore`. -/
def obPass (data : List Candle) (currentIndex : ℕ) (ty : SigType) (zone : FvgZone) : Bool :=
  let obLookback := currentIndex - 20
  let obIdx := List.range' obLookback (currentIndex - obLookback)
  match ty with
  | SigType.LONG => obIdx.any (fun j =>
      decide ((data.getD j defaultCandle).low ≤ zone.bottom * 1.002 ∧
        zone.bottom * 0.995 ≤ (data.getD j defaultCandle).low))
  | SigType.SHORT => obIdx.any (fun j =>
      decide (zone.top * 0.998 ≤ (data.getD j defaultCandle).high ∧
        (data.getD j defaultCandle).high ≤ zone.top * 1.005))

/-- Criterion 5 (liquidity swept): the candle before zone formation took out
the folded swing extreme of the window `[max 0 (formedAt - 10), formedAt)`;
the `liqPass` block of `calculateCompositeScore`.  The `none` branches model
comparison against the `Infinity` initial value of the fold. -/
def liqPass (data : List Candle) (ty : SigType) (zone : FvgZone) : Bool :=
  let liqLookback := zone.formedAt - 10
  let liqIdx := List.range' liqLookback (zone.formedAt - liqLookback)
  match ty with
  | SigType.LONG =>
    let swingLow := foldMinQ (liqIdx.map (fun j => (data.getD j defaultCandle).low))
    decide (0 < zone.formedAt) &&
      (match swingLow with
        | some m => decide ((data.getD (zone.formedAt - 1) defaultCandle).low ≤ m * 1.001)
        | none => true)
  | SigType.SHORT =>
    let swingHigh := foldMaxQ (liqIdx.map (fun j => (data.getD j defaultCandle).high))
    decide (0 < zone.formedAt) &&
      (match swingHigh with
        | some m => decide (m * 0.999 ≤ (data.getD (zone.formedAt - 1) defaultCandle).high)
        | none => true)

/-- Criterion 6 (discount/premium): the mitigation close sits on the
favorable side of the 40-candle range midpoint; the `dpPass` block of
`calculateCompositeScore`.  The `none` case is the empty window, whose
equilibrium is `NaN` in the source and fails both comparisons. -/
def dpPass (data : List Candle) (currentIndex : ℕ) (ty : SigType) (curr : Candle) : Bool :=
  let dpLookback := currentIndex - 40
  let dpIdx := List.range' dpLookback (currentIndex - dpLookback)
  let rangeHigh := foldMaxQ (dpIdx.map (fun j => (data.getD j defaultCandle).high))
  let rangeLow := foldMinQ (dpIdx.map (fun j => (data.getD j defaultCandle).low))
  match rangeHigh, rangeLow with
  | some rh, some rl =>
    let eq := (rh + rl) / 2
    (match ty with
      | SigType.LONG => decide (curr.close ≤ eq)
      | SigType.SHORT => decide (eq ≤ curr.close))
  | _, _ => false

/-- Criterion 7 (candlestick rejection): pin-bar wick test guarded by the
`totalRange > 0` check; the `csPass` block of `calculateCompositeScore`. -/
def csPass (ty : SigType) (curr : Candle) : Bool :=
  let body := |curr.close - curr.open_|
  let totalRange := curr.high - curr.low
  if 0 < totalRange then
    let lowerWick := min curr.open_ curr.close - curr.low
    let upperWick := curr.high - max curr.open_ curr.close
    (match ty with
      | SigType.LONG => decide (body * 0.5 < lowerWick)
      | SigType.SHORT => decide (body * 0.5 < upperWick))
  else false

/-- The 100-point composite confluence scorer (`calculateCompositeScore`).
Each of the seven criteria is a boolean gate awarding either its full weight
or zero. -/
def calculateCompositeScore (data : List Candle) (currentIndex : ℕ) (ty : SigType)
    (zone : FvgZone) (sma50 : Option ℚ) : ScoreResult :=
  let curr := data.getD currentIndex defaultCandle
  let W := CONFLUENCE_WEIGHTS
  let msP := msPass ty sma50 curr
  let msScore := gate msP W.marketStructure
  let sessionPass := isNYSession curr.time
  let sessionScore := gate sessionPass W.sessionOverlap
  let obP := obPass data currentIndex ty zone
  let obScore := gate obP W.orderBlock
  let fvgScore := W.fvgPresence
  let liqP := liqPass data ty zone
  let liqScore := gate liqP W.liquiditySwept
  let dpP := dpPass data currentIndex ty curr
  let dpScore := gate dpP W.discountPremium
  let csP := csPass ty curr
  let csScore := gate csP W.candlestick
  let totalScore := msScore + sessionScore + obScore + fvgScore + liqScore + dpScore + csScore
  { totalScore := totalScore
    breakdown :=
      { marketStructure := ⟨msScore, W.marketStructure, msP⟩
        sessionOverlap := ⟨sessionScore, W.sessionOverlap, sessionPass⟩
        orderBlock := ⟨obScore, W.orderBlock, obP⟩
        fvgPresence := ⟨fvgScore, W.fvgPresence, true⟩
        liquiditySwept := ⟨liqScore, W.liquiditySwept, liqP⟩
        discountPremium := ⟨dpScore, W.discountPremium, dpP⟩
        candlestick := ⟨csScore, W.candlestick, csP⟩ } }

/-- Phase A of the scan loop body: strict three-candle FVG detection at index
`i`, returning the zones and formation markers pushed there. -/
def phaseA (data : List Candle) (i : ℕ) : List FvgZone × List ChartMarker :=
  let prev2 := data.getD (i - 2) defaultCandle
  let prev1 := data.getD (i - 1) defaultCandle
  let curr := data.getD i defaultCandle
  let sma50 := sma data i SMA_PERIOD
  let bodyPrev1 := |prev1.close - prev1.open_|
  let avgBody14 := avgBody data (i - 1) ATR_PERIOD
  let bullish : Bool := decide (prev2.high < curr.low) && trendAbove sma50 curr.close &&
    decide (DISPLACEMENT_MULT * avgBody14 < bodyPrev1)
  let bearish : Bool := decide (curr.high < prev2.low) && trendBelow sma50 curr.close &&
    decide (DISPLACEMENT_MULT * avgBody14 < bodyPrev1)
  ((if bullish then
      [{ type := ZoneType.bullish, top := curr.low, bottom := prev2.high,
         mitigated := false, time := curr.time, formedAt := i }] else []) ++
   (if bearish then
      [{ type := ZoneType.bearish, top := prev2.low, bottom := curr.high,
         mitigated := false, time := curr.time, formedAt := i }] else []),
   (if bullish then
      [{ time := curr.time, position := MarkerPosition.belowBar, color := COLOR_BULLISH_FVG,
         shape := MarkerShape.square, text := "FVG↑", size := some 1 }] else []) ++
   (if bearish then
      [{ time := curr.time, position := MarkerPosition.aboveBar, color := COLOR_BEARISH_FVG,
         shape := MarkerShape.square, text := "FVG↓", size := some 1 }] else []))

/-- Mitigation test of one zone against the current candle (the two branch
conditions of Phase B), returning the trade direction when triggered. -/
def mitSignalType (zone : FvgZone) (curr : Candle) : Option SigType :=
  if zone.type = ZoneType.bullish ∧ curr.low ≤ zone.top ∧ zone.bottom ≤ curr.low then
    some SigType.LONG
  else if zone.type = ZoneType.bearish ∧ zone.bottom ≤ curr.high ∧ curr.high ≤ zone.top then
    some SigType.SHORT
  else none

/-- Display text of a signal direction. -/
def sigTypeText : SigType → String
  | SigType.LONG => "LONG"
  | SigType.SHORT => "SHORT"

/-- Phase B of the scan loop body for a single zone: skip mitigated or
just-formed zones, otherwise test mitigation, mark the zone, score it and
emit the entry marker / signal when the score clears `MIN_SCORE`. -/
def handleZone (data : List Candle) (i : ℕ) (zone : FvgZone) :
    FvgZone × List ChartMarker × List ICTSignal :=
  let curr := data.getD i defaultCandle
  if zone.mitigated = true ∨ zone.time = curr.time then (zone, [], [])
  else
    let currentSma50 := sma data i SMA_PERIOD
    match mitSignalType zone curr with
    | none => (zone, [], [])
    | some ty =>
      let zone' := { zone with mitigated := true }
      let r := calculateCompositeScore data i ty zone' currentSma50
      if MIN_SCORE ≤ r.totalScore then
        (zone',
         [{ time := curr.time,
            position := if ty = SigType.LONG then MarkerPosition.belowBar else MarkerPosition.aboveBar,
            color := if ty = SigType.LONG then COLOR_LONG_ENTRY else COLOR_SHORT_ENTRY,
            shape := if ty = SigType.LONG then MarkerShape.arrowUp else MarkerShape.arrowDown,
            text := "🎯 " ++ sigTypeText ty ++ " (" ++ toString r.totalScore ++ "%)",
            size := some 2 }],
         [{ time := curr.time, type := ty, totalScore := r.totalScore, breakdown := r.breakdown }])
      else (zone', [], [])

/-- Mutable scan state of `findFVGs`: the collections built by the loop. -/
structure ScanState where
  markers : List ChartMarker
  signals : List ICTSignal
  openZones : List FvgZone
deriving DecidableEq, Repr

/-- One iteration of the main `for` loop of `findFVGs` at candle index `i`:
Phase A appends new zones and formation markers, Phase B walks every zone in
order, updating it and appending its outputs. -/
def step (data : List Candle) (st : ScanState) (i : ℕ) : ScanState :=
  let pa := phaseA data i
  let zs := st.openZones ++ pa.1
  { markers := st.markers ++ pa.2 ++ (zs.map (fun z => (handleZone data i z).2.1)).flatten
    signals := st.signals ++ (zs.map (fun z => (handleZone data i z).2.2)).flatten
    openZones := zs.map (fun z => (handleZone data i z).1) }

/-- The scan loop of `findFVGs`, folded over an explicit index list. -/
def scanIdx (data : List Candle) (idxs : List ℕ) (st : ScanState) : ScanState :=
  idxs.foldl (step data) st

/-- Marker ordering used by the final `markers.sort((a, b) => ta - tb)`. -/
def markerLE (a b : ChartMarker) : Prop := a.time ≤ b.time

instance : DecidableRel markerLE :=
  fun a b => inferInstanceAs (Decidable (a.time ≤ b.time))

/-- Main export `findFVGs`: strict ICT fair value gaps plus composite-score
entry signals.  The trailing `Array.prototype.sort` by coerced numeric time
is modelled by a stable sort under `markerLE`. -/
def findFVGs (data : List Candle) : FVGResult :=
  if data.length < max 3 SMA_PERIOD then { markers := [], signals := [] }
  else
    let final := scanIdx data (List.range' 2 (data.length - 2)) ⟨[], [], []⟩
    { markers := List.insertionSort markerLE final.markers
      signals := final.signals }

/-! Specification-side predicates (written from the spec text, to be compared
with the behaviour of the embedded source functions). -/

/-- Spec reading of the liquidity-sweep criterion: the candle immediately
preceding zone formation (index `f - 1`) breached, within the 0.1 percent
tolerance, the extreme low (LONG) or extreme high (SHORT) of the 10 candles
before that candle, i.e. of the window `[f - 11, f - 2]`. -/
def sweepClaimedBefore (data : List Candle) (f : ℕ) (ty : SigType) : Prop :=
  0 < f ∧ ∀ j, j < f - 1 → f - 11 ≤ j →
    (ty = SigType.LONG →
      (data.getD (f - 1) defaultCandle).low ≤ (data.getD j defaultCandle).low * 1.001) ∧
    (ty = SigType.SHORT →
      (data.getD j defaultCandle).high * 0.999 ≤ (data.getD (f - 1) defaultCandle).high)

/-- Amended reading of the liquidity-sweep criterion: the candle at `f - 1`
breached, within the 0.1 percent tolerance, the extreme low (LONG) or
extreme high (SHORT) of the up-to-10-candle window ending at and including
`f - 1` itself, i.e. of `[max 0 (f - 10), f - 1]`. -/
def sweepWindowThrough (data : List Candle) (f : ℕ) (ty : SigType) : Prop :=
  0 < f ∧ ∀ j, j < f → f - 10 ≤ j →
    (ty = SigType.LONG →
      (data.getD (f - 1) defaultCandle).low ≤ (data.getD j defaultCandle).low * 1.001) ∧
    (ty = SigType.SHORT →
      (data.getD j defaultCandle).high * 0.999 ≤ (data.getD (f - 1) defaultCandle).high)

/-- The breakdown well-formedness asserted by the spec: each criterion scores
0 or its declared max, and the seven declared maxima sum to 100. -/
def breakdownOK (b : ScoreBreakdown) : Prop :=
  (b.marketStructure.score = 0 ∨ b.marketStructure.score = b.marketStructure.max) ∧
  (b.sessionOverlap.score = 0 ∨ b.sessionOverlap.score = b.sessionOverlap.max) ∧
  (b.orderBlock.score = 0 ∨ b.orderBlock.score = b.orderBlock.max) ∧
  (b.fvgPresence.score = 0 ∨ b.fvgPresence.score = b.fvgPresence.max) ∧
  (b.liquiditySwept.score = 0 ∨ b.liquiditySwept.score = b.liquiditySwept.max) ∧
  (b.discountPremium.score = 0 ∨ b.discountPremium.score = b.discountPremium.max) ∧
  (b.candlestick.score = 0 ∨ b.candlestick.score = b.candlestick.max) ∧
  b.marketStructure.max + b.sessionOverlap.max + b.orderBlock.max + b.fvgPresence.max +
    b.liquiditySwept.max + b.discountPremium.max + b.candlestick.max = 100

instance : IsTotal ChartMarker markerLE := ⟨fun a b => le_total a.time b.time⟩

instance : IsTrans ChartMarker markerLE := ⟨fun _ _ _ h1 h2 => le_trans h1 h2⟩

/-! Concrete input data used by witnesses and counterexamples. -/

/-- A flat candle at minute `k`: all four prices equal `100`. -/
def mkFlat (k : ℕ) : Candle := ⟨100 + k, 100, 100, 100, 100⟩

/-- 51 candles: flat up to index 47, a displacement body at 48, a bullish
fair value gap forming at 49 (gap `[100, 115]`) and a candle at 50 that dips
back into the gap, mitigating it with composite score 75. -/
def testData : List Candle :=
  (List.range 48).map mkFlat ++
  [⟨148, 100, 110, 100, 110⟩, ⟨149, 120, 122, 115, 121⟩, ⟨150, 120, 126, 110, 125⟩]

/-- The breakdown of the single signal that `findFVGs testData` emits. -/
def testBreakdown : ScoreBreakdown :=
  { marketStructure := ⟨20, 20, true⟩
    sessionOverlap := ⟨0, 15, false⟩
    orderBlock := ⟨20, 20, true⟩
    fvgPresence := ⟨15, 15, true⟩
    liquiditySwept := ⟨15, 15, true⟩
    discountPremium := ⟨0, 10, false⟩
    candlestick := ⟨5, 5, true⟩ }

/-- The single signal that `findFVGs testData` emits. -/
def testSignal : ICTSignal := ⟨150, SigType.LONG, 75, testBreakdown⟩

/-- The bullish zone formed at index 49 of `testData`. -/
def testFormedZone : FvgZone := ⟨ZoneType.bullish, 115, 100, false, 149, 49⟩

/-- An already-mitigated zone, used to witness inertness. -/
def testMitigatedZone : FvgZone := ⟨ZoneType.bullish, 10, 5, true, 1, 0⟩

/-- Three candles with strictly ascending times; the last one dips into the
zone `[5, 10]` of `testOpenZone`. -/
def testMitData : List Candle :=
  [⟨1, 100, 101, 99, 100⟩, ⟨2, 100, 101, 99, 100⟩, ⟨3, 8, 9, 7, 8⟩]

/-- An open bullish zone over `[5, 10]` formed at index 0 of `testMitData`. -/
def testOpenZone : FvgZone := ⟨ZoneType.bullish, 10, 5, false, 1, 0⟩

/-- Three candles for the sub-threshold mitigation scenario: the third one
enters the zone `[5, 10]` but scores only 25 (FVG presence 15 and
discount/premium 10). -/
def testSubData : List Candle :=
  [⟨100, 55, 60, 50, 55⟩, ⟨200, 55, 60, 50, 55⟩, ⟨300, 7, 7, 7, 7⟩]

/-- An open bullish zone over `[5, 10]` formed at index 0 of `testSubData`. -/
def testSubZone : FvgZone := ⟨ZoneType.bullish, 10, 5, false, 100, 0⟩

/-- 13 candles separating the two liquidity-sweep window readings for a zone
formed at index 12: the extreme low 10 sits at index 1 (inside the
spec window `[1, 10]`, outside the code window `[2, 11]`), and index 11 (the
candle preceding formation) has low 50, far above `10 * 1.001` but equal to
the code window minimum. -/
def cexLiqData : List Candle :=
  [⟨0, 100, 100, 100, 100⟩, ⟨1, 100, 100, 10, 100⟩, ⟨2, 100, 100, 100, 100⟩,
   ⟨3, 100, 100, 100, 100⟩, ⟨4, 100, 100, 100, 100⟩, ⟨5, 100, 100, 100, 100⟩,
   ⟨6, 100, 100, 100, 100⟩, ⟨7, 100, 100, 100, 100⟩, ⟨8, 100, 100, 100, 100⟩,
   ⟨9, 100, 100, 100, 100⟩, ⟨10, 100, 100, 100, 100⟩, ⟨11, 100, 100, 50, 100⟩,
   ⟨12, 100, 100, 100, 100⟩]

/-- A bullish zone recorded as formed at index 12 of `cexLiqData`. -/
def cexLiqZone : FvgZone := ⟨ZoneType.bullish, 100, 90, false, 12, 12⟩

/-- A zero-range candle (all prices 5), for the candlestick guard witness. -/
def zeroRangeCandle : Candle := ⟨0, 5, 5, 5, 5⟩

/-- A pin-bar candle: small body `[10, 10.2]`, long lower wick down to 5. -/
def pinBarCandle : Candle := ⟨0, 10, 10.5, 5, 10.2⟩

/-! Helper lemmas. -/

lemma gate_zero_or (p : Bool) (w : ℕ) : gate p w = 0 ∨ gate p w = w := by
  cases p <;> simp [gate]

lemma calc_breakdown_ok (data : List Candle) (i : ℕ) (ty : SigType) (z : FvgZone)
    (s50 : Option ℚ) : breakdownOK (calculateCompositeScore data i ty z s50).breakdown := by
  simp only [calculateCompositeScore, breakdownOK]
  exact ⟨gate_zero_or _ _, gate_zero_or _ _, gate_zero_or _ _, by simp, gate_zero_or _ _,
    gate_zero_or _ _, gate_zero_or _ _, by decide⟩

lemma handleZone_mitigated (data : List Candle) (i : ℕ) (z : FvgZone)
    (hz : z.mitigated = true) : handleZone data i z = (z, [], []) := by
  simp [handleZone, hz]

lemma phaseA_zone_time (data : List Candle) (i : ℕ) (z : FvgZone)
    (hz : z ∈ (phaseA data i).1) : z.time = (data.getD i defaultCandle).time := by
  simp only [phaseA] at hz
  rcases List.mem_append.1 hz with h | h <;>
    · split at h
      · rw [List.mem_singleton.1 h]
      · simp at h

lemma handleZone_signal_ok (data : List Candle) (i : ℕ) (z : FvgZone) :
    ∀ s ∈ (handleZone data i z).2.2, MIN_SCORE ≤ s.totalScore ∧ breakdownOK s.breakdown := by
  intro s hs
  simp only [handleZone] at hs
  split at hs
  · simp at hs
  · split at hs
    · simp at hs
    · split at hs
      · rename_i hge
        rw [List.mem_singleton.1 hs]
        exact ⟨hge, calc_breakdown_ok _ _ _ _ _⟩
      · simp at hs

lemma handleZone_signal_time (data : List Candle) (i : ℕ) (z : FvgZone) :
    ∀ s ∈ (handleZone data i z).2.2, s.time = (data.getD i defaultCandle).time := by
  intro s hs
  simp only [handleZone] at hs
  split at hs
  · simp at hs
  · split at hs
    · simp at hs
    · split at hs
      · rw [List.mem_singleton.1 hs]
      · simp at hs

lemma handleZone_signal_type (data : List Candle) (i : ℕ) (zone : FvgZone) (ty : SigType)
    (hmt : mitSignalType zone (data.getD i defaultCandle) = some ty) :
    ∀ s ∈ (handleZone data i zone).2.2, s.type = ty := by
  intro s hs
  simp only [handleZone] at hs
  split at hs
  · simp at hs
  · split at hs
    · simp at hs
    · rename_i ty' heq
      rw [hmt] at heq
      injection heq with heq'
      split at hs
      · rw [List.mem_singleton.1 hs]
        exact heq'.symm
      · simp at hs

lemma scanIdx_signals_invariant (data : List Candle) (P : ICTSignal → Prop)
    (hnew : ∀ i z s, s ∈ (handleZone data i z).2.2 → P s) :
    ∀ (idxs : List ℕ) (st : ScanState), (∀ s ∈ st.signals, P s) →
      ∀ s ∈ (scanIdx data idxs st).signals, P s := by
  intro idxs
  induction idxs with
  | nil => intro st h s hs; exact h s hs
  | cons i rest ih =>
    intro st h s hs
    refine ih (step data st i) ?_ s hs
    intro t ht
    simp only [step] at ht
    rcases List.mem_append.1 ht with h1 | h1
    · exact h t h1
    · obtain ⟨l, hl, hm⟩ := List.mem_flatten.1 h1
      obtain ⟨w, _, rfl⟩ := List.mem_map.1 hl
      exact hnew i w t hm

lemma step_signal_split (data : List Candle) (st : ScanState) (i : ℕ) :
    ∀ s ∈ (step data st i).signals,
      s ∈ st.signals ∨ s.time = (data.getD i defaultCandle).time := by
  intro s hs
  simp only [step] at hs
  rcases List.mem_append.1 hs with h1 | h1
  · exact Or.inl h1
  · obtain ⟨l, hl, hm⟩ := List.mem_flatten.1 h1
    obtain ⟨w, _, rfl⟩ := List.mem_map.1 hl
    exact Or.inr (handleZone_signal_time data i w s hm)

lemma scanIdx_signals_sorted (data : List Candle)
    (tmono : ∀ j k : ℕ, j < k → k < data.length →
      (data.getD j defaultCandle).time < (data.getD k defaultCandle).time) :
    ∀ (idxs : List ℕ) (st : ScanState),
      List.Pairwise (· < ·) idxs →
      (∀ i ∈ idxs, i < data.length) →
      (∀ s ∈ st.signals, ∀ i ∈ idxs, s.time ≤ (data.getD i defaultCandle).time) →
      List.Pairwise (fun a b : ICTSignal => a.time ≤ b.time) st.signals →
      List.Pairwise (fun a b : ICTSignal => a.time ≤ b.time) (scanIdx data idxs st).signals := by
  intro idxs
  induction idxs with
  | nil => intro st _ _ _ h; exact h
  | cons i rest ih =>
    intro st hpw hbnd hub hsorted
    have hpc := List.pairwise_cons.1 hpw
    have hstep : ∀ s ∈ (step data st i).signals,
        s ∈ st.signals ∨ s.time = (data.getD i defaultCandle).time :=
      step_signal_split data st i
    refine ih (step data st i) hpc.2 (fun j hj => hbnd j (List.mem_cons_of_mem i hj)) ?_ ?_
    · intro s hs j hj
      rcases hstep s hs with h1 | h1
      · exact hub s h1 j (List.mem_cons_of_mem i hj)
      · rw [h1]
        exact le_of_lt (tmono i j (hpc.1 j hj) (hbnd j (List.mem_cons_of_mem i hj)))
    · simp only [step]
      rw [List.pairwise_append]
      refine ⟨hsorted, ?_, ?_⟩
      · refine List.pairwise_of_forall_mem_list ?_
        intro a ha b hb
        obtain ⟨la, hla, hma⟩ := List.mem_flatten.1 ha
        obtain ⟨wa, _, rfl⟩ := List.mem_map.1 hla
        obtain ⟨lb, hlb, hmb⟩ := List.mem_flatten.1 hb
        obtain ⟨wb, _, rfl⟩ := List.mem_map.1 hlb
        rw [handleZone_signal_time data i wa a hma, handleZone_signal_time data i wb b hmb]
      · intro a ha b hb
        obtain ⟨lb, hlb, hmb⟩ := List.mem_flatten.1 hb
        obtain ⟨wb, _, rfl⟩ := List.mem_map.1 hlb
        rw [handleZone_signal_time data i wb b hmb]
        exact hub a ha i (List.mem_cons_self i rest)

lemma step_insert_mitigated (data : List Candle) (i : ℕ) (ms : List ChartMarker)
    (ss : List ICTSignal) (zs₁ zs₂ : List FvgZone) (z : FvgZone) (hz : z.mitigated = true) :
    step data ⟨ms, ss, zs₁ ++ z :: zs₂⟩ i =
      { markers := (step data ⟨ms, ss, zs₁ ++ zs₂⟩ i).markers
        signals := (step data ⟨ms, ss, zs₁ ++ zs₂⟩ i).signals
        openZones := zs₁.map (fun w => (handleZone data i w).1) ++
          z :: (zs₂ ++ (phaseA data i).1).map (fun w => (handleZone data i w).1) } ∧
    (step data ⟨ms, ss, zs₁ ++ zs₂⟩ i).openZones =
      zs₁.map (fun w => (handleZone data i w).1) ++
        (zs₂ ++ (phaseA data i).1).map (fun w => (handleZone data i w).1) := by
  constructor
  · simp [step, List.append_assoc, List.map_append, List.flatten_append,
      handleZone_mitigated data i z hz]
  · simp [step, List.append_assoc, List.map_append]

lemma mitSignalType_eq_long_iff (zone : FvgZone) (curr : Candle) :
    mitSignalType zone curr = some SigType.LONG ↔
      (zone.type = ZoneType.bullish ∧ curr.low ≤ zone.top ∧ zone.bottom ≤ curr.low) := by
  constructor
  · intro h
    unfold mitSignalType at h
    split_ifs at h with h1 h2
    all_goals first
    | exact h1
    | simp at h
  · intro h
    unfold mitSignalType
    rw [if_pos h]

lemma mitSignalType_eq_short_iff (zone : FvgZone) (curr : Candle) :
    mitSignalType zone curr = some SigType.SHORT ↔
      (zone.type = ZoneType.bearish ∧ zone.bottom ≤ curr.high ∧ curr.high ≤ zone.top) := by
  constructor
  · intro h
    unfold mitSignalType at h
    split_ifs at h with h1 h2
    all_goals first
    | exact h2
    | simp at h
  · intro h
    unfold mitSignalType
    rw [if_neg (by simp [h.1]), if_pos h]

lemma mitSignalType_isSome_iff (zone : FvgZone) (curr : Candle) :
    (mitSignalType zone curr).isSome = true ↔
      ((zone.type = ZoneType.bullish ∧ zone.bottom ≤ curr.low ∧ curr.low ≤ zone.top) ∨
       (zone.type = ZoneType.bearish ∧ zone.bottom ≤ curr.high ∧ curr.high ≤ zone.top)) := by
  constructor
  · intro h
    unfold mitSignalType at h
    split_ifs at h with h1 h2
    · exact Or.inl ⟨h1.1, h1.2.2, h1.2.1⟩
    · exact Or.inr h2
    · simp at h
  · intro h
    unfold mitSignalType
    rcases h with h | h
    · rw [if_pos ⟨h.1, h.2.2, h.2.1⟩]
      rfl
    · by_cases h1 : (zone.type = ZoneType.bullish ∧ curr.low ≤ zone.top ∧ zone.bottom ≤ curr.low)
      · rw [if_pos h1]
        rfl
      · rw [if_neg h1, if_pos h]
        rfl

lemma handleZone_mitigated_iff_isSome (data : List Candle) (i : ℕ) (zone : FvgZone)
    (hopen : zone.mitigated = false)
    (hne : zone.time ≠ (data.getD i defaultCandle).time) :
    ((handleZone data i zone).1.mitigated = true ↔
      (mitSignalType zone (data.getD i defaultCandle)).isSome = true) := by
  simp only [handleZone]
  rw [if_neg (by simp only [hopen, Bool.false_eq_true, false_or]; exact hne)]
  cases hmt : mitSignalType zone (data.getD i defaultCandle) with
  | none => simp [hopen]
  | some ty =>
    simp only [Option.isSome_some, iff_true]
    split <;> rfl

lemma foldl_some_min (l : List ℚ) : ∀ a : ℚ,
    l.foldl (fun acc x => some (acc.elim x (fun b => min b x))) (some a) =
      some (l.foldl min a) := by
  induction l with
  | nil => intro a; rfl
  | cons x xs ih => intro a; simp only [List.foldl_cons, Option.elim_some]; exact ih (min a x)

lemma foldMinQ_cons (x : ℚ) (l : List ℚ) : foldMinQ (x :: l) = some (l.foldl min x) := by
  unfold foldMinQ
  simp only [List.foldl_cons, Option.elim_none]
  exact foldl_some_min l x

lemma foldl_some_max (l : List ℚ) : ∀ a : ℚ,
    l.foldl (fun acc x => some (acc.elim x (fun b => max b x))) (some a) =
      some (l.foldl max a) := by
  induction l with
  | nil => intro a; rfl
  | cons x xs ih => intro a; simp only [List.foldl_cons, Option.elim_some]; exact ih (max a x)

lemma foldMaxQ_cons (x : ℚ) (l : List ℚ) : foldMaxQ (x :: l) = some (l.foldl max x) := by
  unfold foldMaxQ
  simp only [List.foldl_cons, Option.elim_none]
  exact foldl_some_max l x

lemma foldl_min_le_init (l : List ℚ) : ∀ a : ℚ, l.foldl min a ≤ a := by
  induction l with
  | nil => intro a; exact le_refl a
  | cons x xs ih => intro a; exact le_trans (ih (min a x)) (min_le_left a x)

lemma foldl_min_le_mem (l : List ℚ) : ∀ (a x : ℚ), x ∈ l → l.foldl min a ≤ x := by
  induction l with
  | nil => intro a x hx; simp at hx
  | cons y ys ih =>
    intro a x hx
    rcases List.mem_cons.1 hx with rfl | hx
    · exact le_trans (foldl_min_le_init ys (min a x)) (min_le_right a x)
    · exact ih (min a y) x hx

lemma foldl_min_mem_or (l : List ℚ) : ∀ a : ℚ, l.foldl min a = a ∨ l.foldl min a ∈ l := by
  induction l with
  | nil => intro a; exact Or.inl rfl
  | cons y ys ih =>
    intro a
    rw [List.foldl_cons]
    rcases ih (min a y) with h | h
    · rcases min_cases a y with ⟨h2, _⟩ | ⟨h2, _⟩
      · exact Or.inl (by rw [h, h2])
      · exact Or.inr (by rw [h, h2]; exact List.mem_cons_self y ys)
    · exact Or.inr (List.mem_cons_of_mem y h)

lemma foldl_max_init_le (l : List ℚ) : ∀ a : ℚ, a ≤ l.foldl max a := by
  induction l with
  | nil => intro a; exact le_refl a
  | cons x xs ih => intro a; exact le_trans (le_max_left a x) (ih (max a x))

lemma foldl_max_mem_le (l : List ℚ) : ∀ (a x : ℚ), x ∈ l → x ≤ l.foldl max a := by
  induction l with
  | nil => intro a x hx; simp at hx
  | cons y ys ih =>
    intro a x hx
    rcases List.mem_cons.1 hx with rfl | hx
    · exact le_trans (le_max_right a x) (foldl_max_init_le ys (max a x))
    · exact ih (max a y) x hx

lemma foldl_max_mem_or (l : List ℚ) : ∀ a : ℚ, l.foldl max a = a ∨ l.foldl max a ∈ l := by
  induction l with
  | nil => intro a; exact Or.inl rfl
  | cons y ys ih =>
    intro a
    rw [List.foldl_cons]
    rcases ih (max a y) with h | h
    · rcases max_cases a y with ⟨h2, _⟩ | ⟨h2, _⟩
      · exact Or.inl (by rw [h, h2])
      · exact Or.inr (by rw [h, h2]; exact List.mem_cons_self y ys)
    · exact Or.inr (List.mem_cons_of_mem y h)

lemma foldMinQ_le_iff (l : List ℚ) (hl : l ≠ []) (c t : ℚ) (ht : 0 < t) :
    ((match foldMinQ l with
      | some m => decide (c ≤ m * t)
      | none => true) = true) ↔ ∀ x ∈ l, c ≤ x * t := by
  obtain ⟨x, xs, rfl⟩ := List.exists_cons_of_ne_nil hl
  rw [foldMinQ_cons]
  simp only [decide_eq_true_eq]
  constructor
  · intro h y hy
    rcases List.mem_cons.1 hy with rfl | hy
    · exact le_trans h (mul_le_mul_of_nonneg_right (foldl_min_le_init xs y) ht.le)
    · exact le_trans h (mul_le_mul_of_nonneg_right (foldl_min_le_mem xs x y hy) ht.le)
  · intro h
    rcases foldl_min_mem_or xs x with h2 | h2
    · rw [h2]; exact h x (List.mem_cons_self x xs)
    · exact h _ (List.mem_cons_of_mem x h2)

lemma foldMaxQ_ge_iff (l : List ℚ) (hl : l ≠ []) (c t : ℚ) (ht : 0 < t) :
    ((match foldMaxQ l with
      | some m => decide (m * t ≤ c)
      | none => true) = true) ↔ ∀ x ∈ l, x * t ≤ c := by
  obtain ⟨x, xs, rfl⟩ := List.exists_cons_of_ne_nil hl
  rw [foldMaxQ_cons]
  simp only [decide_eq_true_eq]
  constructor
  · intro h y hy
    rcases List.mem_cons.1 hy with rfl | hy
    · exact le_trans (mul_le_mul_of_nonneg_right (foldl_max_init_le xs y) ht.le) h
    · exact le_trans (mul_le_mul_of_nonneg_right (foldl_max_mem_le xs x y hy) ht.le) h
  · intro h
    rcases foldl_max_mem_or xs x with h2 | h2
    · rw [h2]; exact h x (List.mem_cons_self x xs)
    · exact h _ (List.mem_cons_of_mem x h2)

lemma liqPass_eq_sweep (data : List Candle) (ty : SigType) (zone : FvgZone) :
    liqPass data ty zone = true ↔ sweepWindowThrough data zone.formedAt ty := by
  by_cases h0 : 0 < zone.formedAt
  · have hne : List.range' (zone.formedAt - 10) (zone.formedAt - (zone.formedAt - 10)) ≠ [] := by
      rw [Ne, List.range'_eq_nil]
      omega
    cases ty with
    | LONG =>
      unfold liqPass sweepWindowThrough
      simp only [Bool.and_eq_true, decide_eq_true_eq]
      rw [foldMinQ_le_iff _ (by simpa using hne) _ _ (by norm_num)]
      constructor
      · rintro ⟨-, h⟩
        refine ⟨h0, ?_⟩
        intro j hj1 hj2
        refine ⟨fun _ => ?_, fun hcon => by cases hcon⟩
        exact h _ (List.mem_map.2 ⟨j, List.mem_range'_1.2 ⟨hj2, by omega⟩, rfl⟩)
      · rintro ⟨-, h⟩
        refine ⟨h0, ?_⟩
        intro x hx
        obtain ⟨j, hj, rfl⟩ := List.mem_map.1 hx
        have hjr := List.mem_range'_1.1 hj
        exact (h j (by omega) hjr.1).1 (by trivial)
    | SHORT =>
      unfold liqPass sweepWindowThrough
      simp only [Bool.and_eq_true, decide_eq_true_eq]
      rw [foldMaxQ_ge_iff _ (by simpa using hne) _ _ (by norm_num)]
      constructor
      · rintro ⟨-, h⟩
        refine ⟨h0, ?_⟩
        intro j hj1 hj2
        refine ⟨fun hcon => (by cases hcon), fun _ => ?_⟩
        exact h _ (List.mem_map.2 ⟨j, List.mem_range'_1.2 ⟨hj2, by omega⟩, rfl⟩)
      · rintro ⟨-, h⟩
        refine ⟨h0, ?_⟩
        intro x hx
        obtain ⟨j, hj, rfl⟩ := List.mem_map.1 hx
        have hjr := List.mem_range'_1.1 hj
        exact (h j (by omega) hjr.1).2 (by trivial)
  · unfold liqPass sweepWindowThrough
    cases ty <;> simp [h0]

/-! Claim theorems and witnesses. -/

/-- C1: every signal returned by `findFVGs` has `totalScore ≥ 60`, each of
the seven criteria in its breakdown scores either 0 or its declared max, and
the seven max values sum to 100. -/
theorem findFVGs_signal_gate (data : List Candle) :
    ∀ s ∈ (findFVGs data).signals, 60 ≤ s.totalScore ∧ breakdownOK s.breakdown := by
  intro s hs
  simp only [findFVGs] at hs
  split at hs
  · simp at hs
  · refine scanIdx_signals_invariant data
      (fun t => 60 ≤ t.totalScore ∧ breakdownOK t.breakdown) ?_ _ _ ?_ s hs
    · intro i z t ht
      simpa [MIN_SCORE] using handleZone_signal_ok data i z t ht
    · intro t ht
      simp at ht

/-- C1 witness: `findFVGs testData` emits the concrete score-75 LONG signal
`testSignal`, which therefore satisfies the gate. -/
theorem findFVGs_signal_gate_witness :
    60 ≤ testSignal.totalScore ∧ breakdownOK testSignal.breakdown :=
  findFVGs_signal_gate testData testSignal (by with_unfolding_all decide)

/-- C2: for a strictly time-ascending input, an open zone is mitigated by a
later candle exactly when the candle low (bullish) or high (bearish) lies in
`[bottom, top]`, and the mitigation direction is LONG for bullish zones and
SHORT for bearish zones. -/
theorem mitigation_condition_iff (data : List Candle) (zone : FvgZone) (i : ℕ)
    (hasc : List.Pairwise (· < ·) (data.map Candle.time))
    (hopen : zone.mitigated = false)
    (htime : zone.time = (data.getD zone.formedAt defaultCandle).time)
    (hfi : zone.formedAt < i) (hin : i < data.length) :
    ((handleZone data i zone).1.mitigated = true ↔
      ((zone.type = ZoneType.bullish ∧ zone.bottom ≤ (data.getD i defaultCandle).low ∧
          (data.getD i defaultCandle).low ≤ zone.top) ∨
       (zone.type = ZoneType.bearish ∧ zone.bottom ≤ (data.getD i defaultCandle).high ∧
          (data.getD i defaultCandle).high ≤ zone.top))) ∧
    ((zone.type = ZoneType.bullish ∧ zone.bottom ≤ (data.getD i defaultCandle).low ∧
        (data.getD i defaultCandle).low ≤ zone.top) →
      (mitSignalType zone (data.getD i defaultCandle) = some SigType.LONG ∧
       ∀ s ∈ (handleZone data i zone).2.2, s.type = SigType.LONG)) ∧
    ((zone.type = ZoneType.bearish ∧ zone.bottom ≤ (data.getD i defaultCandle).high ∧
        (data.getD i defaultCandle).high ≤ zone.top) →
      (mitSignalType zone (data.getD i defaultCandle) = some SigType.SHORT ∧
       ∀ s ∈ (handleZone data i zone).2.2, s.type = SigType.SHORT)) := by
  have hne : zone.time ≠ (data.getD i defaultCandle).time := by
    have hf : zone.formedAt < data.length := lt_trans hfi hin
    have h := List.pairwise_iff_getElem.1 hasc zone.formedAt i
      (by simpa using hf) (by simpa using hin) hfi
    simp only [List.getElem_map] at h
    rw [htime, List.getD_eq_getElem data defaultCandle hf,
      List.getD_eq_getElem data defaultCandle hin]
    exact ne_of_lt h
  refine ⟨?_, ?_, ?_⟩
  · rw [handleZone_mitigated_iff_isSome data i zone hopen hne]
    exact mitSignalType_isSome_iff zone (data.getD i defaultCandle)
  · intro hb
    have hmt : mitSignalType zone (data.getD i defaultCandle) = some SigType.LONG :=
      (mitSignalType_eq_long_iff zone _).2 ⟨hb.1, hb.2.2, hb.2.1⟩
    exact ⟨hmt, handleZone_signal_type data i zone SigType.LONG hmt⟩
  · intro hb
    have hmt : mitSignalType zone (data.getD i defaultCandle) = some SigType.SHORT :=
      (mitSignalType_eq_short_iff zone _).2 hb
    exact ⟨hmt, handleZone_signal_type data i zone SigType.SHORT hmt⟩

/-- C2 witness: candle 2 of `testMitData` (low 7) falls into the open zone
`[5, 10]`, so the zone is mitigated there. -/
theorem mitigation_condition_iff_witness :
    (handleZone testMitData 2 testOpenZone).1.mitigated = true :=
  (mitigation_condition_iff testMitData testOpenZone 2 (by with_unfolding_all decide) rfl
    (by with_unfolding_all decide) (by decide) (by decide)).1.mpr
    (Or.inl ⟨rfl, by with_unfolding_all decide, by with_unfolding_all decide⟩)

/-- C3: an input with fewer than 50 candles yields empty markers and empty
signals. -/
theorem findFVGs_short_input (data : List Candle) (h : data.length < 50) :
    findFVGs data = { markers := [], signals := [] } := by
  have h' : data.length < max 3 SMA_PERIOD := by simpa [SMA_PERIOD] using h
  simp [findFVGs, h']

/-- C3 witness: the empty input. -/
theorem findFVGs_short_input_witness :
    findFVGs [] = { markers := [], signals := [] } :=
  findFVGs_short_input [] (by decide)

/-- C4: for strictly time-ascending input, both returned collections are
non-decreasing in time. -/
theorem findFVGs_output_time_sorted (data : List Candle)
    (hasc : List.Pairwise (· < ·) (data.map Candle.time)) :
    List.Pairwise (fun a b : ChartMarker => a.time ≤ b.time) (findFVGs data).markers ∧
    List.Pairwise (fun a b : ICTSignal => a.time ≤ b.time) (findFVGs data).signals := by
  have tmono : ∀ j k : ℕ, j < k → k < data.length →
      (data.getD j defaultCandle).time < (data.getD k defaultCandle).time := by
    intro j k hjk hk
    have hj : j < data.length := lt_trans hjk hk
    have h := List.pairwise_iff_getElem.1 hasc j k (by simpa using hj) (by simpa using hk) hjk
    simp only [List.getElem_map] at h
    rw [List.getD_eq_getElem data defaultCandle hj, List.getD_eq_getElem data defaultCandle hk]
    exact h
  constructor
  · simp only [findFVGs]
    split
    · simp
    · exact List.sorted_insertionSort markerLE _
  · simp only [findFVGs]
    split
    · simp
    · refine scanIdx_signals_sorted data tmono (List.range' 2 (data.length - 2)) ⟨[], [], []⟩
        (List.pairwise_lt_range' 2 (data.length - 2)) ?_ ?_ ?_
      · intro i hi
        have := List.mem_range'_1.1 hi
        omega
      · intro s hs
        simp at hs
      · simp

/-- C4 witness: the 51-candle `testData` input, whose times are strictly
ascending. -/
theorem findFVGs_output_time_sorted_witness :
    List.Pairwise (fun a b : ChartMarker => a.time ≤ b.time) (findFVGs testData).markers ∧
    List.Pairwise (fun a b : ICTSignal => a.time ≤ b.time) (findFVGs testData).signals :=
  findFVGs_output_time_sorted testData (by with_unfolding_all decide)

/-- C5: a zone that is already mitigated is inert for the rest of the scan:
scanning any remaining index list with the mitigated zone in the open-zone
list produces exactly the markers and signals of the scan without it, and the
zone itself survives unchanged (still mitigated, never re-scored). -/
theorem mitigated_zone_inert (data : List Candle) (idxs : List ℕ) (ms : List ChartMarker)
    (ss : List ICTSignal) (zs₁ zs₂ : List FvgZone) (z : FvgZone) (hz : z.mitigated = true) :
    ∃ zs₁' zs₂' : List FvgZone,
      scanIdx data idxs ⟨ms, ss, zs₁ ++ z :: zs₂⟩ =
        { markers := (scanIdx data idxs ⟨ms, ss, zs₁ ++ zs₂⟩).markers
          signals := (scanIdx data idxs ⟨ms, ss, zs₁ ++ zs₂⟩).signals
          openZones := zs₁' ++ z :: zs₂' } ∧
      (scanIdx data idxs ⟨ms, ss, zs₁ ++ zs₂⟩).openZones = zs₁' ++ zs₂' := by
  induction idxs generalizing ms ss zs₁ zs₂ with
  | nil => exact ⟨zs₁, zs₂, rfl, rfl⟩
  | cons i rest ih =>
    obtain ⟨h1, h2⟩ := step_insert_mitigated data i ms ss zs₁ zs₂ z hz
    have hstate : (⟨(step data ⟨ms, ss, zs₁ ++ zs₂⟩ i).markers,
        (step data ⟨ms, ss, zs₁ ++ zs₂⟩ i).signals,
        zs₁.map (fun w => (handleZone data i w).1) ++
          (zs₂ ++ (phaseA data i).1).map (fun w => (handleZone data i w).1)⟩ : ScanState) =
        step data ⟨ms, ss, zs₁ ++ zs₂⟩ i := by
      rw [← h2]
    obtain ⟨zs₁', zs₂', ih1, ih2⟩ := ih (step data ⟨ms, ss, zs₁ ++ zs₂⟩ i).markers
      (step data ⟨ms, ss, zs₁ ++ zs₂⟩ i).signals
      (zs₁.map (fun w => (handleZone data i w).1))
      ((zs₂ ++ (phaseA data i).1).map (fun w => (handleZone data i w).1))
    refine ⟨zs₁', zs₂', ?_, ?_⟩
    · show scanIdx data rest (step data ⟨ms, ss, zs₁ ++ z :: zs₂⟩ i) = _
      rw [h1]
      rw [hstate] at ih1
      exact ih1
    · show (scanIdx data rest (step data ⟨ms, ss, zs₁ ++ zs₂⟩ i)).openZones = _
      rw [hstate] at ih2
      exact ih2

/-- C5 witness: the mitigated `testMitigatedZone` is inert across the scan of
index 2 of `testMitData`. -/
theorem mitigated_zone_inert_witness :
    ∃ zs₁' zs₂' : List FvgZone,
      scanIdx testMitData [2] ⟨[], [], [] ++ testMitigatedZone :: []⟩ =
        { markers := (scanIdx testMitData [2] ⟨[], [], [] ++ []⟩).markers
          signals := (scanIdx testMitData [2] ⟨[], [], [] ++ []⟩).signals
          openZones := zs₁' ++ testMitigatedZone :: zs₂' } ∧
      (scanIdx testMitData [2] ⟨[], [], [] ++ []⟩).openZones = zs₁' ++ zs₂' :=
  mitigated_zone_inert testMitData [2] [] [] [] [] testMitigatedZone rfl

/-- C6: the candle that forms a zone never mitigates that same zone: at its
formation index every newly pushed zone is skipped by Phase B unchanged, with
no marker, signal or score computation, even though for a bullish zone the
forming candle low always lies inside `[bottom, top]`. -/
theorem formation_candle_never_mitigates (data : List Candle) (i : ℕ) (z : FvgZone)
    (hz : z ∈ (phaseA data i).1) : handleZone data i z = (z, [], []) := by
  have ht := phaseA_zone_time data i z hz
  simp [handleZone, ht]

/-- C6 witness: the bullish zone formed at index 49 of `testData` (its top
115 equals the forming candle low, which thus lies inside the zone) is not
mitigated by candle 49 itself. -/
theorem formation_candle_never_mitigates_witness :
    handleZone testData 49 testFormedZone = (testFormedZone, [], []) :=
  formation_candle_never_mitigates testData 49 testFormedZone (by with_unfolding_all decide)

/-- C7: a mitigation whose composite score is below 60 still marks the zone
mitigated but appends no signal and no entry marker. -/
theorem subthreshold_mitigation_consumes_zone (data : List Candle) (i : ℕ)
    (zone : FvgZone) (ty : SigType)
    (hopen : zone.mitigated = false)
    (hne : zone.time ≠ (data.getD i defaultCandle).time)
    (hmit : mitSignalType zone (data.getD i defaultCandle) = some ty)
    (hsub : (calculateCompositeScore data i ty { zone with mitigated := true }
      (sma data i SMA_PERIOD)).totalScore < MIN_SCORE) :
    handleZone data i zone = ({ zone with mitigated := true }, [], []) := by
  simp only [handleZone]
  rw [if_neg (by simp only [hopen, Bool.false_eq_true, false_or]; exact hne), hmit]
  exact if_neg (Nat.not_le.2 hsub)

/-- C7 witness: candle 2 of `testSubData` mitigates the zone `[5, 10]` with
composite score 25 (only FVG presence and discount/premium pass), so the zone
is consumed without any output. -/
theorem subthreshold_mitigation_consumes_zone_witness :
    handleZone testSubData 2 testSubZone = ({ testSubZone with mitigated := true }, [], []) :=
  subthreshold_mitigation_consumes_zone testSubData 2 testSubZone SigType.LONG rfl
    (by with_unfolding_all decide) (by with_unfolding_all decide)
    (by with_unfolding_all decide)

/-- C8 counterexample: the liquidity-sweep criterion of the code passes on
`cexLiqData` for the zone formed at index 12, although the spec reading
(breach of the extreme of the 10 candles before candle 11) fails there,
because the code window is `[2, 11]` (ending at the breaching candle itself)
while the spec window is `[1, 10]`. -/
theorem liq_sweep_claim_cex :
    ((calculateCompositeScore cexLiqData 12 SigType.LONG cexLiqZone
        none).breakdown.liquiditySwept.passed = true) ∧
    ¬ sweepClaimedBefore cexLiqData 12 SigType.LONG := by
  refine ⟨by with_unfolding_all decide, ?_⟩
  unfold sweepClaimedBefore
  with_unfolding_all decide

/-- C8 (amended): the liquidity-sweep criterion passes exactly when the
candle immediately preceding zone formation breached, within the 0.1 percent
tolerance, the extreme low (LONG) or high (SHORT) of the up-to-10-candle
window ending at that candle itself (indices `max 0 (f - 10)` through
`f - 1`), with `f > 0` required. -/
theorem liq_sweep_pass_iff (data : List Candle) (i : ℕ) (ty : SigType) (zone : FvgZone)
    (s50 : Option ℚ) :
    ((calculateCompositeScore data i ty zone s50).breakdown.liquiditySwept.passed = true) ↔
      sweepWindowThrough data zone.formedAt ty := by
  have hproj : (calculateCompositeScore data i ty zone s50).breakdown.liquiditySwept.passed =
      liqPass data ty zone := rfl
  rw [hproj, liqPass_eq_sweep]

/-- C9: on a zero-range mitigation candle the candlestick-rejection criterion
fails with score 0 (no indeterminate value is produced: the comparison is
short-circuited), and on a positive-range candle it passes exactly when the
wick opposite the trade direction exceeds half the body. -/
theorem candlestick_rejection_guarded (data : List Candle) (i : ℕ) (ty : SigType)
    (zone : FvgZone) (s50 : Option ℚ) :
    ((data.getD i defaultCandle).high = (data.getD i defaultCandle).low →
      (calculateCompositeScore data i ty zone s50).breakdown.candlestick.passed = false ∧
      (calculateCompositeScore data i ty zone s50).breakdown.candlestick.score = 0) ∧
    ((data.getD i defaultCandle).low < (data.getD i defaultCandle).high →
      ((calculateCompositeScore data i ty zone s50).breakdown.candlestick.passed = true ↔
        ((ty = SigType.LONG →
          |(data.getD i defaultCandle).close - (data.getD i defaultCandle).open_| / 2 <
            min (data.getD i defaultCandle).open_ (data.getD i defaultCandle).close -
              (data.getD i defaultCandle).low) ∧
         (ty = SigType.SHORT →
          |(data.getD i defaultCandle).close - (data.getD i defaultCandle).open_| / 2 <
            (data.getD i defaultCandle).high -
              max (data.getD i defaultCandle).open_ (data.getD i defaultCandle).close)))) := by
  have hproj : (calculateCompositeScore data i ty zone s50).breakdown.candlestick.passed =
      csPass ty (data.getD i defaultCandle) := rfl
  have hprojs : (calculateCompositeScore data i ty zone s50).breakdown.candlestick.score =
      gate (csPass ty (data.getD i defaultCandle)) CONFLUENCE_WEIGHTS.candlestick := rfl
  constructor
  · intro h
    have hcs : csPass ty (data.getD i defaultCandle) = false := by
      simp only [csPass]
      rw [if_neg (by rw [h]; simp)]
    exact ⟨by rw [hproj, hcs], by rw [hprojs, hcs]; rfl⟩
  · intro h
    rw [hproj]
    simp only [csPass]
    rw [if_pos (sub_pos.2 h)]
    cases ty with
    | LONG =>
      simp only [decide_eq_true_eq]
      constructor
      · intro hw
        exact ⟨fun _ => by linarith, fun hcon => absurd hcon (by decide)⟩
      · rintro ⟨h1, -⟩
        have := h1 (by trivial)
        linarith
    | SHORT =>
      simp only [decide_eq_true_eq]
      constructor
      · intro hw
        exact ⟨fun hcon => absurd hcon (by decide), fun _ => by linarith⟩
      · rintro ⟨-, h2⟩
        have := h2 (by trivial)
        linarith

/-- C9 witness: the zero-range candle fails the criterion, while the pin-bar
candle (body 0.2, lower wick 5) passes it for a LONG mitigation. -/
theorem candlestick_rejection_guarded_witness :
    ((calculateCompositeScore [zeroRangeCandle] 0 SigType.LONG testOpenZone
        none).breakdown.candlestick.passed = false) ∧
    ((calculateCompositeScore [pinBarCandle] 0 SigType.LONG testOpenZone
        none).breakdown.candlestick.passed = true) :=
  ⟨((candlestick_rejection_guarded [zeroRangeCandle] 0 SigType.LONG testOpenZone none).1
      (by with_unfolding_all decide)).1,
   ((candlestick_rejection_guarded [pinBarCandle] 0 SigType.LONG testOpenZone none).2
      (by with_unfolding_all decide)).mpr
    ⟨fun _ => by with_unfolding_all decide, fun hcon => absurd hcon (by decide)⟩⟩


end MarketFlow
